import Mathlib

/-!
Verification of the kube-rs runtime slice: the reflector/store pipeline
(`kube-runtime/src/reflector/mod.rs`) and the `secret_syncer` finalizer
example (`examples/secret_syncer.rs`).

The source is shallowly embedded: streams become lists of items, the
shared `Store` becomes an explicit value threaded through a fold, and
remote API calls become function parameters plus an explicit call trace.
Components of the runtime whose source is not part of this slice (the
store writer, `ObjectRef::from_obj`, the finalizer wrapper) are modelled
from the specification and marked as such in their doc comments.
-/

/- ## Data model -/

/-- Identity of a resource: kind, optional namespace, name
(`reflector/object_ref.rs`, modelled from the spec: "ObjectRef — identity
of a resource: (kind, namespace-or-empty, name)"). -/
structure ObjectRef where
  kind : String
  ns : Option String
  name : String
deriving DecidableEq, Repr

/-- The slice of Kubernetes object metadata the embedded code reads:
`name`, `namespace`, `deletionTimestamp` and the `finalizers` list. -/
structure ObjectMeta where
  name : Option String
  ns : Option String
  deletionTimestamp : Option String
  finalizers : List String
deriving DecidableEq, Repr

/-- A ConfigMap as used by the example: metadata plus `data` and
`binary_data` payloads (maps embedded as association lists). -/
structure ConfigMap where
  metadata : ObjectMeta
  data : List (String × String)
  binary_data : List (String × String)
deriving DecidableEq, Repr

/-- A Secret as built by the example's `apply`: metadata plus
`string_data` and `data`. -/
structure Secret where
  metadata : ObjectMeta
  string_data : List (String × String)
  data : List (String × String)
deriving DecidableEq, Repr

/-- Modelled from the spec: `ObjectRef::from_obj` for a ConfigMap —
the identity tuple (kind, namespace, name). -/
def ObjectRef.from_obj (cm : ConfigMap) : ObjectRef :=
  { kind := "ConfigMap", ns := cm.metadata.ns, name := cm.metadata.name.getD "" }

/- ## Watch events and the store (reflector side) -/

/-- `watcher::Event<K>`: `Applied(obj)`, `Deleted(obj)`,
`Restarted(list<obj>)` (spec section 3, "Watch Event"). -/
inductive Event (K : Type) where
  | Applied : K → Event K
  | Deleted : K → Event K
  | Restarted : List K → Event K
deriving DecidableEq, Repr

/-- The store: a mapping ObjectRef → snapshot, embedded as a function to
`Option`. -/
def Store (K : Type) : Type := ObjectRef → Option K

/-- The empty store (`store::Writer::default()`). -/
def Store.empty (K : Type) : Store K := fun _ => none

/-- Modelled from the spec: `store::Writer::apply_watcher_event`
(`reflector/store.rs` is not part of this slice). Spec section 3:
after `Applied(o)` the store maps `ref(o)` to `o`; after `Deleted(o)`
the entry for `ref(o)` is removed; after `Restarted(list)` the store
contains exactly the ObjectRefs of `list` with their given snapshots
(repeated refs resolve to the latest snapshot in the list). -/
def apply_watcher_event {K : Type} (ref : K → ObjectRef) (s : Store K) :
    Event K → Store K
  | .Applied o => fun r => if r = ref o then some o else s r
  | .Deleted o => fun r => if r = ref o then none else s r
  | .Restarted objs => fun r => objs.reverse.find? fun o => decide (ref o = r)

/-- Folding a whole event sequence into the store. -/
def applyEvents {K : Type} (ref : K → ObjectRef) (s : Store K)
    (evs : List (Event K)) : Store K :=
  evs.foldl (apply_watcher_event ref) s

/-- The `Ok` events of a stream of `Result` items (the ones
`inspect_ok` lets act on the store). -/
def okEvents {K E : Type} : List (Except E (Event K)) → List (Event K)
  | [] => []
  | .ok ev :: rest => ev :: okEvents rest
  | .error _ :: rest => okEvents rest

/-- `reflector(store, stream)` = `stream.inspect_ok(|event|
store.apply_watcher_event(event))` (`reflector/mod.rs` lines 20-25),
embedded over a list of stream items. Each output item is paired with
the store contents at the moment that item is handed downstream: `Ok`
events are applied to the store first and then forwarded unchanged;
`Err` items are forwarded without touching the store. -/
def reflector {K E : Type} (ref : K → ObjectRef) (store : Store K) :
    List (Except E (Event K)) → List (Store K × Except E (Event K))
  | [] => []
  | item :: rest =>
    match item with
    | .ok ev =>
      let store' := apply_watcher_event ref store ev
      (store', .ok ev) :: reflector ref store' rest
    | .error e => (store, .error e) :: reflector ref store rest

/-- The last `Applied`/`Deleted` event of a sequence that concerns the
ObjectRef `r` (written to the spec's words for section 8: "the Store's
final value equals the last `Applied` snapshot, or is absent if the last
event was `Deleted`"). -/
def lastEventFor {K : Type} (ref : K → ObjectRef) (r : ObjectRef) :
    List (Event K) → Option (Event K)
  | [] => none
  | ev :: rest =>
    match lastEventFor ref r rest with
    | some e => some e
    | none =>
      match ev with
      | .Applied o => if ref o = r then some (.Applied o) else none
      | .Deleted o => if ref o = r then some (.Deleted o) else none
      | .Restarted _ => none

/-- Spec-side description of the store's final value at `r`: the
snapshot of the last `Applied` event for `r`, absent if the last event
for `r` was `Deleted` or no event for `r` was processed. -/
def specFinalValue {K : Type} (ref : K → ObjectRef) (r : ObjectRef)
    (evs : List (Event K)) : Option K :=
  match lastEventFor ref r evs with
  | some (.Applied o) => some o
  | _ => none

/-- An event is a `Restarted` batch. -/
def Event.isRestarted {K : Type} : Event K → Bool
  | .Restarted _ => true
  | _ => false

/- ## The secret_syncer example (`examples/secret_syncer.rs`) -/

namespace SecretSyncer

/-- `kube::error::ErrorResponse`: the API server's error payload; the
example only inspects `code`. -/
structure ErrorResponse where
  status : String
  message : String
  reason : String
  code : Nat
deriving DecidableEq, Repr

/-- `kube::Error` as the example observes it: an API error response, or
any other failure (transport etc.), which the example never inspects
further. -/
inductive KubeError where
  | Api : ErrorResponse → KubeError
  | RequestError : String → KubeError
deriving DecidableEq, Repr

/-- The example's `Error` enum (`secret_syncer.rs` lines 20-30). -/
inductive Error where
  | NoName : Error
  | NoNamespace : Error
  | UpdateSecret : KubeError → Error
  | DeleteSecret : KubeError → Error
deriving DecidableEq, Repr

/-- `ReconcilerAction { requeue_after: Option<Duration> }`, durations in
whole seconds. -/
structure ReconcilerAction where
  requeue_after : Option Nat
deriving DecidableEq, Repr

/-- `secret_name_for_configmap` (lines 33-38): `Ok("cm---{name}")` when
the metadata name is present, `Err(NoName)` otherwise. -/
def secret_name_for_configmap (cm : ConfigMap) : Except Error String :=
  match cm.metadata.name with
  | some name => .ok ("cm---" ++ name)
  | none => .error .NoName

/-- A remote API call the example issues, recorded as a trace entry. -/
inductive ApiCall where
  | patch : String → Secret → ApiCall
  | delete : String → ApiCall
deriving DecidableEq, Repr

/-- The Secret name an API call addresses. -/
def ApiCall.targetName : ApiCall → String
  | .patch n _ => n
  | .delete n => n

/-- `apply` (lines 40-60): compute the secret name (propagating
`NoName`), server-side-apply a Secret carrying the ConfigMap's `data`
and `binary_data`, map a patch rejection to `UpdateSecret`, and on
success return no requeue. The remote `secrets.patch` call is a
function parameter; the calls issued are returned as a trace. -/
def apply (patchSecret : String → Secret → Except KubeError Secret)
    (cm : ConfigMap) : Except Error ReconcilerAction × List ApiCall :=
  match secret_name_for_configmap cm with
  | .error e => (.error e, [])
  | .ok secret_name =>
    let payload : Secret :=
      { metadata := { name := some secret_name, ns := none,
                      deletionTimestamp := none, finalizers := [] }
        string_data := cm.data
        data := cm.binary_data }
    match patchSecret secret_name payload with
    | .ok _ => (.ok { requeue_after := none }, [.patch secret_name payload])
    | .error e => (.error (.UpdateSecret e), [.patch secret_name payload])

/-- `cleanup` (lines 62-75): compute the secret name (propagating
`NoName`), delete the Secret, map a 404 API response to success
("object is already deleted"), map any other rejection to
`DeleteSecret`, and on success return no requeue. -/
def cleanup (deleteSecret : String → Except KubeError Unit)
    (cm : ConfigMap) : Except Error ReconcilerAction × List ApiCall :=
  match secret_name_for_configmap cm with
  | .error e => (.error e, [])
  | .ok secret_name =>
    match deleteSecret secret_name with
    | .ok _ => (.ok { requeue_after := none }, [.delete secret_name])
    | .error (KubeError.Api resp) =>
      if resp.code = 404 then (.ok { requeue_after := none }, [.delete secret_name])
      else (.error (.DeleteSecret (.Api resp)), [.delete secret_name])
    | .error e => (.error (.DeleteSecret e), [.delete secret_name])

/-- The error handler of `main` (lines 106-108):
`|_err, _| ReconcilerAction { requeue_after: Some(Duration::from_secs(2)) }`. -/
def error_policy (_err : Error) (_ctx : Unit) : ReconcilerAction :=
  { requeue_after := some 2 }

/-- Outcome of a Rust expression that may panic. -/
inductive RustOutcome (α : Type) where
  | panicked : String → RustOutcome α
  | returned : α → RustOutcome α
deriving DecidableEq, Repr

/-- The namespace extraction in `main`'s reconciler closure (line 88):
`cm.meta().namespace.as_deref().ok_or(Error::NoNamespace).unwrap()` —
`unwrap` on an `Err` value is a Rust panic, so a missing namespace
panics the closure instead of returning `Err(NoNamespace)`. -/
def reconcile_closure_ns (cm : ConfigMap) : RustOutcome String :=
  match cm.metadata.ns with
  | some ns => .returned ns
  | none => .panicked "NoNamespace"

/-- `finalizer::Event`: which branch of the user reconciler runs. -/
inductive FinalizerEvent where
  | Apply : ConfigMap → FinalizerEvent
  | Cleanup : ConfigMap → FinalizerEvent
deriving DecidableEq, Repr

/-- What one finalizer-wrapped reconciliation cycle did: which user
branch ran, the object's finalizer list after the cycle (as persisted
by the wrapper's patches), and the result handed back to the
scheduler. -/
structure FinalizerOutcome where
  invokedApply : Bool
  invokedCleanup : Bool
  finalizersAfter : List String
  result : Except Error ReconcilerAction
deriving Repr

/-- Modelled from the spec: the `finalizer` wrapper
(`kube::runtime::finalizer`, not part of this slice), spec section 4.4.
Four branches from (deletion timestamp set?, token present?): token
absent and no deletion timestamp → add the token, no user invocation;
token present and no deletion timestamp → run the "apply" branch;
token present and deletion timestamp set → run the "cleanup" branch and
remove the token only on its success, keeping it and propagating the
error on failure; token absent and deletion timestamp set → nothing to
do. -/
def finalizer (finalizer_name : String)
    (reconcile : FinalizerEvent → Except Error ReconcilerAction)
    (obj : ConfigMap) : FinalizerOutcome :=
  if finalizer_name ∈ obj.metadata.finalizers then
    if obj.metadata.deletionTimestamp.isSome then
      match reconcile (.Cleanup obj) with
      | .ok act =>
        { invokedApply := false, invokedCleanup := true
          finalizersAfter :=
            obj.metadata.finalizers.filter fun f => decide (f ≠ finalizer_name)
          result := .ok act }
      | .error e =>
        { invokedApply := false, invokedCleanup := true
          finalizersAfter := obj.metadata.finalizers
          result := .error e }
    else
      { invokedApply := true, invokedCleanup := false
        finalizersAfter := obj.metadata.finalizers
        result := reconcile (.Apply obj) }
  else
    if obj.metadata.deletionTimestamp.isSome then
      { invokedApply := false, invokedCleanup := false
        finalizersAfter := obj.metadata.finalizers
        result := .ok { requeue_after := none } }
    else
      { invokedApply := false, invokedCleanup := false
        finalizersAfter := obj.metadata.finalizers ++ [finalizer_name]
        result := .ok { requeue_after := none } }

end SecretSyncer

/- ## Concrete fixtures -/

/-- The ConfigMap `a` of the reflector tests (no data). -/
def cmA : ConfigMap :=
  { metadata := { name := some "a", ns := none,
                  deletionTimestamp := none, finalizers := [] },
    data := [], binary_data := [] }

/-- The updated ConfigMap `a` of the reflector tests, now carrying
data. -/
def cmA2 : ConfigMap :=
  { metadata := { name := some "a", ns := none,
                  deletionTimestamp := none, finalizers := [] },
    data := [("data", "present!")], binary_data := [] }

/-- The ConfigMap `b` of the reflector restart test. -/
def cmB : ConfigMap :=
  { metadata := { name := some "b", ns := none,
                  deletionTimestamp := none, finalizers := [] },
    data := [], binary_data := [] }

/-- A ConfigMap marked for deletion and carrying the example's finalizer
token, used to exercise the cleanup branch. -/
def cmPendingDeletion : ConfigMap :=
  { metadata := { name := some "a", ns := some "default",
                  deletionTimestamp := some "2020-01-01T00:00:00Z",
                  finalizers := ["configmap-secret-syncer.nullable.se/cleanup"] },
    data := [], binary_data := [] }

/-- A user reconciler whose cleanup branch fails with a delete error. -/
def failingReconcile : SecretSyncer.FinalizerEvent →
    Except SecretSyncer.Error SecretSyncer.ReconcilerAction :=
  fun _ => .error (.DeleteSecret (.RequestError "boom"))

/- ## Theorems -/

open SecretSyncer

/-- Claim C7: the example's error-backoff policy is a fixed delay: for
every error value (and context) the error handler returns a requeue
directive of exactly 2 seconds. The closure receives no failure count,
so the delay cannot depend on how many consecutive failures preceded. -/
theorem c7_error_policy_fixed_two_seconds (e : Error) (ctx : Unit) :
    error_policy e ctx = { requeue_after := some 2 } := rfl

/-- Claim C10: on success both the apply branch and the cleanup branch
return a requeue directive of "no further action" (`requeue_after =
None`), for every remote API behaviour and every ConfigMap. -/
theorem c10_success_no_requeue
    (patchSecret : String → Secret → Except KubeError Secret)
    (deleteSecret : String → Except KubeError Unit) (cm : ConfigMap) :
    (∀ act, (SecretSyncer.apply patchSecret cm).1 = .ok act →
        act = { requeue_after := none }) ∧
    (∀ act, (cleanup deleteSecret cm).1 = .ok act →
        act = { requeue_after := none }) := by
  constructor
  · intro act h
    unfold SecretSyncer.apply at h
    split at h
    · simp at h
    · dsimp only at h
      split at h <;> simp_all
  · intro act h
    unfold cleanup at h
    split at h
    · simp at h
    · split at h
      · simp_all
      · split at h <;> simp_all
      · simp_all

/-- Claim C10 witness: with a remote API that accepts the patch and the
delete, both branches succeed with no requeue on a concrete ConfigMap. -/
theorem c10_success_no_requeue_witness :
    (SecretSyncer.apply (fun _ s => .ok s)
      { metadata := { name := some "a", ns := some "default",
                      deletionTimestamp := none, finalizers := [] },
        data := [], binary_data := [] }).1 = .ok { requeue_after := none } ∧
    (cleanup (fun _ => .ok ())
      { metadata := { name := some "a", ns := some "default",
                      deletionTimestamp := none, finalizers := [] },
        data := [], binary_data := [] }).1 = .ok { requeue_after := none } := by
  have h := c10_success_no_requeue (fun _ s => .ok s) (fun _ => .ok ())
    { metadata := { name := some "a", ns := some "default",
                    deletionTimestamp := none, finalizers := [] },
      data := [], binary_data := [] }
  exact ⟨by rfl, by rfl⟩

/-- Claim C5: `cleanup` returns success exactly when the remote delete
succeeds or reports not-found (HTTP 404); any other delete rejection is
propagated as a `DeleteSecret` error. -/
theorem c5_cleanup_not_found_is_success
    (deleteSecret : String → Except KubeError Unit) (cm : ConfigMap)
    (name : String) (hname : secret_name_for_configmap cm = .ok name) :
    ((cleanup deleteSecret cm).1 = .ok { requeue_after := none } ↔
      (deleteSecret name = .ok () ∨
        ∃ resp, resp.code = 404 ∧ deleteSecret name = .error (.Api resp))) ∧
    (∀ e, deleteSecret name = .error e →
      (∀ resp, e = KubeError.Api resp → resp.code ≠ 404) →
      (cleanup deleteSecret cm).1 = .error (.DeleteSecret e)) := by
  constructor
  · unfold cleanup
    rw [hname]
    dsimp only
    cases hd : deleteSecret name with
    | ok u => cases u; simp [hd]
    | error e =>
      cases e with
      | Api resp =>
        by_cases hc : resp.code = 404
        · dsimp only
          rw [if_pos hc]
          exact ⟨fun _ => Or.inr ⟨resp, hc, rfl⟩, fun _ => rfl⟩
        · simp [hd, hc]
      | RequestError m => simp [hd]
  · intro e hd hne
    unfold cleanup
    rw [hname]
    dsimp only
    rw [hd]
    cases e with
    | Api resp =>
      dsimp only
      rw [if_neg (hne resp rfl)]
    | RequestError m => rfl

/-- Claim C5 witness: deleting an already-absent Secret (the remote
rejects with a 404 API error) is reported as success on a concrete
ConfigMap. -/
theorem c5_cleanup_not_found_witness :
    (cleanup
      (fun _ => .error (KubeError.Api
        { status := "Failure", message := "secret not found",
          reason := "NotFound", code := 404 }))
      { metadata := { name := some "a", ns := some "default",
                      deletionTimestamp := none, finalizers := [] },
        data := [], binary_data := [] }).1 = .ok { requeue_after := none } :=
  (c5_cleanup_not_found_is_success
      (fun _ => .error (KubeError.Api
        { status := "Failure", message := "secret not found",
          reason := "NotFound", code := 404 }))
      { metadata := { name := some "a", ns := some "default",
                      deletionTimestamp := none, finalizers := [] },
        data := [], binary_data := [] }
      "cm---a" rfl).1.mpr
    (Or.inr ⟨{ status := "Failure", message := "secret not found",
               reason := "NotFound", code := 404 }, rfl, rfl⟩)

/-- Claim C9: `secret_name_for_configmap` is a pure, deterministic
function of the metadata name — `Ok("cm---" ++ name)` when the name is
present, `Err(NoName)` otherwise — and consequently the apply branch
and the cleanup branch address the same Secret name for a given
ConfigMap, whatever the remote API does. -/
theorem c9_apply_cleanup_same_target (cm : ConfigMap) :
    (∀ cm' : ConfigMap, cm'.metadata.name = cm.metadata.name →
      secret_name_for_configmap cm' = secret_name_for_configmap cm) ∧
    (∀ n, cm.metadata.name = some n →
      secret_name_for_configmap cm = .ok ("cm---" ++ n)) ∧
    (cm.metadata.name = none →
      secret_name_for_configmap cm = .error .NoName) ∧
    (∀ (patchSecret : String → Secret → Except KubeError Secret)
       (deleteSecret : String → Except KubeError Unit),
      (SecretSyncer.apply patchSecret cm).2.map ApiCall.targetName =
        (cleanup deleteSecret cm).2.map ApiCall.targetName) := by
  refine ⟨?_, ?_, ?_, ?_⟩
  · intro cm' h
    unfold secret_name_for_configmap
    rw [h]
  · intro n h
    unfold secret_name_for_configmap
    rw [h]
  · intro h
    unfold secret_name_for_configmap
    rw [h]
  · intro patchSecret deleteSecret
    unfold SecretSyncer.apply cleanup
    cases h : secret_name_for_configmap cm with
    | error e => rfl
    | ok name =>
      dsimp only
      split <;> split <;> first
        | rfl
        | (split <;> rfl)

/-- Claim C9 witness: on a ConfigMap named "a", the secret name is
`cm---a`, and with an accepting remote API the apply trace and the
cleanup trace target the same name. -/
theorem c9_apply_cleanup_same_target_witness :
    secret_name_for_configmap
      { metadata := { name := some "a", ns := some "default",
                      deletionTimestamp := none, finalizers := [] },
        data := [], binary_data := [] } = .ok ("cm---" ++ "a") ∧
    (SecretSyncer.apply (fun _ s => .ok s)
      { metadata := { name := some "a", ns := some "default",
                      deletionTimestamp := none, finalizers := [] },
        data := [], binary_data := [] }).2.map ApiCall.targetName =
      (cleanup (fun _ => .ok ())
        { metadata := { name := some "a", ns := some "default",
                        deletionTimestamp := none, finalizers := [] },
          data := [], binary_data := [] }).2.map ApiCall.targetName :=
  ⟨(c9_apply_cleanup_same_target
      { metadata := { name := some "a", ns := some "default",
                      deletionTimestamp := none, finalizers := [] },
        data := [], binary_data := [] }).2.1 "a" rfl,
   (c9_apply_cleanup_same_target
      { metadata := { name := some "a", ns := some "default",
                      deletionTimestamp := none, finalizers := [] },
        data := [], binary_data := [] }).2.2.2 (fun _ s => .ok s) (fun _ => .ok ())⟩

/-- Claim C6 (code bug in `main`, line 88): for a ConfigMap with a name
but no namespace, the reconciler closure panics via `.unwrap()` on
`Err(NoNamespace)` instead of failing the reconciliation with an
ordinary surfaced error; a ConfigMap with no name does fail with the
ordinary `NoName` error, as the claim describes, in both branches. -/
theorem c6_missing_namespace_panics :
    reconcile_closure_ns
      { metadata := { name := some "a", ns := none,
                      deletionTimestamp := none, finalizers := [] },
        data := [], binary_data := [] } = .panicked "NoNamespace" ∧
    (SecretSyncer.apply (fun _ s => .ok s)
      { metadata := { name := none, ns := some "default",
                      deletionTimestamp := none, finalizers := [] },
        data := [], binary_data := [] }).1 = .error .NoName ∧
    (cleanup (fun _ => .ok ())
      { metadata := { name := none, ns := some "default",
                      deletionTimestamp := none, finalizers := [] },
        data := [], binary_data := [] }).1 = .error .NoName :=
  ⟨rfl, rfl, rfl⟩

/-- Claim C4: in the finalizer protocol, when the current snapshot has a
deletion timestamp and this controller's token, the cleanup branch of
the user reconciler runs; the token is removed only when cleanup
returns success; if cleanup fails the token is left in place and the
failure propagates to the caller (the scheduler's error-backoff requeue
path). -/
theorem c4_cleanup_gates_token_removal
    (reconcile : FinalizerEvent → Except Error ReconcilerAction)
    (obj : ConfigMap) (token : String)
    (hts : obj.metadata.deletionTimestamp.isSome = true)
    (htok : token ∈ obj.metadata.finalizers) :
    (finalizer token reconcile obj).invokedCleanup = true ∧
    (∀ act, reconcile (.Cleanup obj) = .ok act →
      token ∉ (finalizer token reconcile obj).finalizersAfter ∧
      (finalizer token reconcile obj).result = .ok act) ∧
    (∀ e, reconcile (.Cleanup obj) = .error e →
      token ∈ (finalizer token reconcile obj).finalizersAfter ∧
      (finalizer token reconcile obj).result = .error e) := by
  unfold finalizer
  rw [if_pos htok, if_pos hts]
  refine ⟨?_, ?_, ?_⟩
  · cases reconcile (.Cleanup obj) <;> rfl
  · intro act h
    rw [h]
    exact ⟨by simp [List.mem_filter], rfl⟩
  · intro e h
    rw [h]
    exact ⟨htok, rfl⟩

/-- Claim C4 witness: on a concrete ConfigMap pending deletion with the
token present, a failing cleanup leaves the token in place and the
error propagates. -/
theorem c4_cleanup_gates_token_removal_witness :
    (finalizer "configmap-secret-syncer.nullable.se/cleanup"
      failingReconcile cmPendingDeletion).invokedCleanup = true ∧
    "configmap-secret-syncer.nullable.se/cleanup" ∈
      (finalizer "configmap-secret-syncer.nullable.se/cleanup"
        failingReconcile cmPendingDeletion).finalizersAfter ∧
    (finalizer "configmap-secret-syncer.nullable.se/cleanup"
      failingReconcile cmPendingDeletion).result =
      .error (.DeleteSecret (.RequestError "boom")) :=
  have h := c4_cleanup_gates_token_removal failingReconcile cmPendingDeletion
    "configmap-secret-syncer.nullable.se/cleanup" rfl
    (List.mem_singleton.mpr rfl)
  ⟨h.1, (h.2.2 _ rfl).1, (h.2.2 _ rfl).2⟩

/-- Unfolding equation: folding a cons of events into the store. -/
theorem applyEvents_cons {K : Type} (ref : K → ObjectRef) (s : Store K)
    (ev : Event K) (evs : List (Event K)) :
    applyEvents ref s (ev :: evs) =
      applyEvents ref (apply_watcher_event ref s ev) evs := rfl

/-- Claim C1: the reflector is an order-preserving pass-through — the
forwarded items are exactly the input items in order, and at the moment
the i-th item is handed downstream the store is the fold of the `Ok`
events of the input up to and including position i, so a consumer that
observes an `Ok` event finds the store already reflecting it. -/
theorem c1_reflector_passthrough {K E : Type} (ref : K → ObjectRef)
    (s : Store K) (l : List (Except E (Event K))) :
    (reflector ref s l).map Prod.snd = l ∧
    ∀ i : Nat, (reflector ref s l)[i]? =
      (l[i]?).map fun item =>
        (applyEvents ref s (okEvents (l.take (i + 1))), item) := by
  induction l generalizing s with
  | nil =>
    refine ⟨rfl, fun i => ?_⟩
    cases i <;> rfl
  | cons item rest ih =>
    cases item with
    | ok ev =>
      refine ⟨?_, fun i => ?_⟩
      · simp only [reflector, List.map_cons]
        rw [(ih (apply_watcher_event ref s ev)).1]
      · cases i with
        | zero => simp [reflector, okEvents, applyEvents]
        | succ n =>
          have h := (ih (apply_watcher_event ref s ev)).2 n
          simp only [reflector, List.getElem?_cons_succ]
          rw [h]
          rfl
    | error e =>
      refine ⟨?_, fun i => ?_⟩
      · simp only [reflector, List.map_cons]
        rw [(ih s).1]
      · cases i with
        | zero => simp [reflector, okEvents, applyEvents]
        | succ n =>
          have h := (ih s).2 n
          simp only [reflector, List.getElem?_cons_succ]
          rw [h]
          rfl

/-- Claim C8: an `Err` item is forwarded downstream unchanged and the
store is not mutated by it: processing `p ++ [Err e] ++ rest` forwards
the items of `p`, then the very `Err e` paired with the store built
from the `Ok` events of `p` alone, and continues on `rest` from that
same untouched store. -/
theorem c8_err_forwarded_store_untouched {K E : Type} (ref : K → ObjectRef)
    (s : Store K) (p rest : List (Except E (Event K))) (e : E) :
    reflector ref s (p ++ .error e :: rest) =
      reflector ref s p ++
        (applyEvents ref s (okEvents p), .error e) ::
          reflector ref (applyEvents ref s (okEvents p)) rest := by
  induction p generalizing s with
  | nil => rfl
  | cons item p' ih =>
    cases item with
    | ok ev =>
      show (apply_watcher_event ref s ev, Except.ok ev) ::
          reflector ref (apply_watcher_event ref s ev)
            (p' ++ Except.error e :: rest) = _
      rw [ih]
      rfl
    | error e' =>
      show (s, Except.error e') ::
          reflector ref s (p' ++ Except.error e :: rest) = _
      rw [ih]
      rfl

/-- In a Restarted-free event sequence, the store's value at `r` after
the fold is decided by the last event concerning `r`: the snapshot of a
final `Applied`, absence after a final `Deleted`, and the starting
store's value when no event concerned `r`. -/
theorem applyEvents_lookup_lastEvent {K : Type} (ref : K → ObjectRef)
    (r : ObjectRef) :
    ∀ (evs : List (Event K)) (s : Store K),
      (∀ ev ∈ evs, ev.isRestarted = false) →
      applyEvents ref s evs r =
        match lastEventFor ref r evs with
        | some (.Applied o) => some o
        | some _ => none
        | none => s r := by
  intro evs
  induction evs with
  | nil => intro s _; rfl
  | cons ev rest ih =>
    intro s h
    have hrest : ∀ e ∈ rest, e.isRestarted = false :=
      fun e he => h e (List.mem_cons_of_mem _ he)
    rw [applyEvents_cons, ih _ hrest]
    cases hl : lastEventFor ref r rest with
    | some e0 =>
      simp only [lastEventFor, hl]
      cases e0 <;> rfl
    | none =>
      simp only [lastEventFor, hl]
      cases ev with
      | Applied o =>
        simp only [apply_watcher_event]
        by_cases ho : r = ref o
        · rw [if_pos ho, if_pos ho.symm]
        · rw [if_neg ho, if_neg (fun hh => ho hh.symm)]
      | Deleted o =>
        simp only [apply_watcher_event]
        by_cases ho : r = ref o
        · rw [if_pos ho, if_pos ho.symm]
        · rw [if_neg ho, if_neg (fun hh => ho hh.symm)]
      | Restarted objs =>
        exact absurd (h _ (List.mem_cons_self _ _)) (by simp [Event.isRestarted])

/-- Claim C2: over any Restarted-free event sequence, starting from the
empty store, the final value at an ObjectRef `r` is the snapshot of the
last `Applied` event for `r`, absent if the last event for `r` was a
`Deleted`, and absent if no event for `r` was ever processed; moreover,
directly after `Applied(o)` the lookup at `ref(o)` yields `Some o` and
directly after `Deleted(o)` it yields `None`, from any prior store. -/
theorem c2_store_follows_last_event {K : Type} (ref : K → ObjectRef)
    (r : ObjectRef) (evs : List (Event K))
    (h : ∀ ev ∈ evs, ev.isRestarted = false) :
    applyEvents ref (Store.empty K) evs r = specFinalValue ref r evs ∧
    (∀ (s : Store K) (o : K),
      apply_watcher_event ref s (.Applied o) (ref o) = some o) ∧
    (∀ (s : Store K) (o : K),
      apply_watcher_event ref s (.Deleted o) (ref o) = none) := by
  refine ⟨?_, ?_, ?_⟩
  · rw [applyEvents_lookup_lastEvent ref r evs _ h]
    unfold specFinalValue
    cases lastEventFor ref r evs with
    | none => rfl
    | some e0 => cases e0 <;> rfl
  · intro s o
    simp [apply_watcher_event]
  · intro s o
    simp [apply_watcher_event]

/-- Claim C2 witness: the tests' scenario — `Applied(a)` then
`Applied(a with data)` leaves the updated snapshot in the store, and
appending `Deleted` removes it. -/
theorem c2_store_follows_last_event_witness :
    applyEvents ObjectRef.from_obj (Store.empty ConfigMap)
      [.Applied cmA, .Applied cmA2] (ObjectRef.from_obj cmA) = some cmA2 ∧
    applyEvents ObjectRef.from_obj (Store.empty ConfigMap)
      [.Applied cmA, .Applied cmA2, .Deleted cmA2]
      (ObjectRef.from_obj cmA) = none := by
  constructor
  · rw [(c2_store_follows_last_event ObjectRef.from_obj
      (ObjectRef.from_obj cmA) [.Applied cmA, .Applied cmA2] (by decide)).1]
    decide
  · rw [(c2_store_follows_last_event ObjectRef.from_obj
      (ObjectRef.from_obj cmA) [.Applied cmA, .Applied cmA2, .Deleted cmA2]
      (by decide)).1]
    decide

/-- Claim C3: a `Restarted(list)` event makes the store's key set
exactly the ObjectRefs of the snapshots in `list` — a lookup succeeds
exactly on those refs, each snapshot is found under its own ref (when
the listed refs are distinct), and every ObjectRef not in `list`, in
particular any previously present one, reads back absent, regardless of
the prior store contents. -/
theorem c3_restarted_replaces_store {K : Type} (ref : K → ObjectRef)
    (s : Store K) (objs : List K) (r : ObjectRef) :
    (apply_watcher_event ref s (.Restarted objs) r ≠ none ↔
      r ∈ objs.map ref) ∧
    ((objs.map ref).Nodup → ∀ o ∈ objs,
      apply_watcher_event ref s (.Restarted objs) (ref o) = some o) ∧
    (r ∉ objs.map ref →
      apply_watcher_event ref s (.Restarted objs) r = none) := by
  refine ⟨?_, ?_, ?_⟩
  · simp [apply_watcher_event, Option.ne_none_iff_isSome, List.find?_isSome,
      List.mem_reverse, List.mem_map]
  · intro hnd o ho
    simp only [apply_watcher_event]
    have hex : (objs.reverse.find? fun x => decide (ref x = ref o)).isSome := by
      rw [List.find?_isSome]
      exact ⟨o, List.mem_reverse.mpr ho, by simp⟩
    obtain ⟨y, hy⟩ := Option.isSome_iff_exists.mp hex
    have hmem : y ∈ objs := List.mem_reverse.mp (List.mem_of_find?_eq_some hy)
    have hpb := List.find?_some (p := fun x => decide (ref x = ref o)) hy
    have hp : ref y = ref o := of_decide_eq_true hpb
    rw [hy, List.inj_on_of_nodup_map hnd hmem ho hp]
  · intro hr
    simp only [apply_watcher_event]
    rw [List.find?_eq_none]
    intro x hx h
    exact hr (List.mem_map.mpr ⟨x, List.mem_reverse.mp hx, of_decide_eq_true h⟩)

/-- Claim C3 witness: the restart test scenario — after `Applied(a)`
then `Restarted([b])`, the lookup for `a` is absent and the lookup for
`b` yields `b`. -/
theorem c3_restarted_replaces_store_witness :
    apply_watcher_event ObjectRef.from_obj
      (apply_watcher_event ObjectRef.from_obj (Store.empty ConfigMap)
        (.Applied cmA))
      (.Restarted [cmB]) (ObjectRef.from_obj cmA) = none ∧
    apply_watcher_event ObjectRef.from_obj
      (apply_watcher_event ObjectRef.from_obj (Store.empty ConfigMap)
        (.Applied cmA))
      (.Restarted [cmB]) (ObjectRef.from_obj cmB) = some cmB := by
  constructor
  · exact (c3_restarted_replaces_store ObjectRef.from_obj
      (apply_watcher_event ObjectRef.from_obj (Store.empty ConfigMap)
        (.Applied cmA))
      [cmB] (ObjectRef.from_obj cmA)).2.2 (by decide)
  · exact (c3_restarted_replaces_store ObjectRef.from_obj
      (apply_watcher_event ObjectRef.from_obj (Store.empty ConfigMap)
        (.Applied cmA))
      [cmB] (ObjectRef.from_obj cmB)).2.1 (by decide) cmB (by decide)
